import Mathlib

/-!
Verification of the job-stage state machine and snapshot pipeline of
`biothings.hub.dataindex` (files `indexer_registrar.py` and `snapshooter.py`).

Documents (Python dicts) are embedded as insertion-ordered association
lists over a JSON-like value type `Val`.  Dict assignment keeps the
position of an existing key and appends a new one at the end, matching
CPython dict semantics; `pop` removes the key.  The document store is a
list of documents keyed by their `_id` field; `find_one` returns the
first match, and `update` / `replace_one` rewrite the first match.

Helpers of the repository that are not part of the two source files
(`biothings.utils.common.merge`, `biothings.utils.common.timesofar`,
`biothings.utils.hub.template_out`, the `snapshot_registrar` module and
the search-engine / object-storage clients) are modelled from the spec;
each such definition carries a doc comment saying so.
-/

/-- A JSON-like value: the shape of everything stored in a build document. -/
inductive Val where
  | vNull : Val
  | vBool : Bool → Val
  | vInt : Int → Val
  | vStr : String → Val
  | vList : List Val → Val
  | vObj : List (String × Val) → Val

/-- The fields of a Python dict, in insertion order. -/
abbrev Fields := List (String × Val)

/-- `d[k]` / `d.get(k)`: value of the first binding of `k`. -/
def getKey : Fields → String → Option Val
  | [], _ => none
  | (k, v) :: rest, key => if k = key then some v else getKey rest key

/-- `d[k] = v`: replace in place when the key exists, else append. -/
def setKey : Fields → String → Val → Fields
  | [], key, v => [(key, v)]
  | (k, w) :: rest, key, v =>
    if k = key then (k, v) :: rest else (k, w) :: setKey rest key v

/-- `d.pop(k, None)`: drop the binding of `k`, keeping the rest in order. -/
def eraseKey : Fields → String → Fields
  | [], _ => []
  | (k, v) :: rest, key =>
    if k = key then eraseKey rest key else (k, v) :: eraseKey rest key

/-- Python truthiness of a value, as used in `if result.pop("__READY__", False):`. -/
def Val.truthy : Val → Bool
  | vNull => false
  | vBool b => b
  | vInt n => n != 0
  | vStr s => s != ""
  | vList xs => !xs.isEmpty
  | vObj fs => !fs.isEmpty

/-- Truthiness of the `__REPLACE__` marker of a delta dict (absent ⇒ false). -/
def replFlag (dx : Fields) : Bool :=
  match getKey dx "__REPLACE__" with
  | some v => v.truthy
  | none => false

mutual

/-- Worker of `merge`: fold the entries of the delta `dx` into `x`.
The `__REPLACE__` marker has already been accounted for in `x` and is
skipped during iteration; every other entry is written into `x` through
`mergeVal`. -/
def mergeGo : Fields → Fields → Fields
  | x, [] => x
  | x, (k, v) :: rest =>
    if k = "__REPLACE__" then mergeGo x rest
    else mergeGo (setKey x k (mergeVal x k v)) rest
termination_by _ dx => sizeOf dx

/-- The value one delta entry contributes: a dict value merges
recursively into an existing dict value under the same key (honouring
its own `__REPLACE__` marker); any other combination is won by the
delta value. -/
def mergeVal (x : Fields) (k : String) : Val → Val
  | Val.vObj dv =>
    match getKey x k with
    | some (Val.vObj xv) => Val.vObj (mergeGo (if replFlag dv then [] else xv) dv)
    | _ => Val.vObj dv
  | v => v
termination_by v => sizeOf v

end

/-- Modelled from the spec: `biothings.utils.common.merge` is not under
`src/`.  Per the spec it is an order-sensitive deep union of key-value
trees in which the right-hand side wins on scalar conflicts, and a
truthy `__REPLACE__` marker on the right-hand side replaces the
corresponding left subtree entirely instead of merging into it (the
marker itself is consumed). -/
def mergeFields (x dx : Fields) : Fields :=
  mergeGo (if replFlag dx then [] else x) dx

/-- In-memory per-registrar stage (`Stage` enum of `indexer_registrar.py`). -/
inductive Stage where
  | READY : Stage
  | STARTED : Stage
  | DONE : Stage
deriving DecidableEq

/-- The faults the registrar code can raise: the bare `assert` guards
(`AssertionError`, carrying the message of the build-existence assert),
`job.pop("pid")` on a record without a `pid` key (`KeyError`),
`build["jobs"][-1]` on an empty log (`IndexError`) and indexing
a non-list / non-dict where one is required (`TypeError`). -/
inductive RegErr where
  | assertionError : String → RegErr
  | keyError : String → RegErr
  | indexError : RegErr
  | typeError : RegErr
deriving DecidableEq

/-- The attributes of the indexer object that `indexer_registrar.py` reads:
`build_name`, `es_index_name`, `logfile`, `es_client_args.get('hosts')`
and `env_name`. -/
structure Indexer where
  build_name : String
  es_index_name : String
  logfile : String
  es_hosts : Val
  env_name : String

/-- The mutable attributes of an `IndexJobStateRegistrar` instance:
the in-memory stage and the start time `t0` (seconds). -/
structure RegState where
  stage : Stage
  t0 : Int
deriving DecidableEq

/-- The document store: a list of build documents, keyed by `_id`. -/
abbrev Coll := List Fields

/-- Does this document match the filter `{"_id": id}`? -/
def idMatches (doc : Fields) (id : String) : Bool :=
  match getKey doc "_id" with
  | some (Val.vStr s) => s == id
  | _ => false

/-- `collection.find_one({"_id": id})`: first matching document. -/
def find_one (coll : Coll) (id : String) : Option Fields :=
  coll.find? (fun doc => idMatches doc id)

/-- `collection.update({"_id": id}, {"$push": {"jobs": job}})` applied to
the first matching document: append to the `jobs` array, creating it
when absent (MongoDB `$push` semantics). -/
def pushJob (doc : Fields) (job : Val) : Fields :=
  match getKey doc "jobs" with
  | some (Val.vList js) => setKey doc "jobs" (Val.vList (js ++ [job]))
  | _ => setKey doc "jobs" (Val.vList [job])

/-- Rewrite the first document matching `{"_id": id}` with `f`. -/
def updateFirst : Coll → String → (Fields → Fields) → Coll
  | [], _, _ => []
  | doc :: rest, id, f =>
    if idMatches doc id then f doc :: rest else doc :: updateFirst rest id f

/-- `collection.replace_one({"_id": id}, newDoc)`. -/
def replace_one (coll : Coll) (id : String) (newDoc : Fields) : Coll :=
  updateFirst coll id (fun _ => newDoc)

/-- The `jobs` log of a build document (empty when absent or not a list). -/
def jobsOf (doc : Fields) : List Val :=
  match getKey doc "jobs" with
  | some (Val.vList js) => js
  | _ => []

/-- Modelled from the spec: `biothings.utils.common.timesofar` is not under
`src/`; per the spec it renders the elapsed time as a human-readable
duration string.  Its exact text is irrelevant to every claim. -/
def timesofar (t0 now : Int) : Val :=
  Val.vStr (toString (now - t0) ++ "s")

namespace IndexJobStateRegistrar

/-- Is this Job record stale, i.e. `job.get("status") == "in progress"`? -/
def jobIsStale : Val → Bool
  | Val.vObj jf =>
    match getKey jf "status" with
    | some (Val.vStr s) => s == "in progress"
    | _ => false
  | _ => false

/-- The rewrite `prune` applies to one Job record: a stale record gets
`status = "cancelled"` and loses `pid` (`job.pop("pid", None)` tolerates
a missing key); any other record is untouched. -/
def pruneJob : Val → Val
  | Val.vObj jf =>
    match getKey jf "status" with
    | some (Val.vStr s) =>
      if s == "in progress" then
        Val.vObj (eraseKey (setKey jf "status" (Val.vStr "cancelled")) "pid")
      else Val.vObj jf
    | _ => Val.vObj jf
  | v => v

/-- Has this build document at least one stale Job record (the `dirty`
flag of the `prune` loop)? -/
def hasStaleJob (doc : Fields) : Bool :=
  match getKey doc "jobs" with
  | some (Val.vList js) => js.any jobIsStale
  | _ => false

/-- Rewrite every stale Job record of one build document. -/
def pruneDoc (doc : Fields) : Fields :=
  match getKey doc "jobs" with
  | some (Val.vList js) => setKey doc "jobs" (Val.vList (js.map pruneJob))
  | _ => doc

/-- `IndexJobStateRegistrar.prune(collection)`: walk every build document,
cancel its stale Job records, and `replace_one` the document back only
when the `dirty` flag was set.  Returns the updated store together with
the list of documents that were written back. -/
def prune : Coll → Coll × List Fields
  | [] => ([], [])
  | doc :: rest =>
    let (coll', writes) := prune rest
    if hasStaleJob doc then (pruneDoc doc :: coll', pruneDoc doc :: writes)
    else (doc :: coll', writes)

/-- `IndexJobStateRegistrar.started(step)`: requires stage `READY`
(`assert self.stage == Stage.READY`), then sets stage `STARTED`,
records `t0 = time.time()` and `$push`es a fresh Job record with status
`"in progress"` onto the build's job log.  `now`, `nowDT` and `pid`
stand for `time.time()`, `datetime.now().astimezone()` and
`os.getpid()`. -/
def started (ind : Indexer) (step : String) (rs : RegState) (now : Int)
    (nowDT : Val) (pid : Int) (coll : Coll) : Except RegErr (RegState × Coll) :=
  if rs.stage = Stage.READY then
    let job : Val := Val.vObj [
      ("step", Val.vStr step),
      ("status", Val.vStr "in progress"),
      ("step_started_at", nowDT),
      ("logfile", Val.vStr ind.logfile),
      ("pid", Val.vInt pid)]
    Except.ok ({ stage := Stage.STARTED, t0 := now },
      updateFirst coll ind.build_name (fun doc => pushJob doc job))
  else Except.error (RegErr.assertionError "")

/-- `IndexJobStateRegistrar._done(func)`: requires stage `STARTED`, loads
the build document (missing build is an assertion fault), takes the last
Job record, sets `time` / `time_in_s`, pops `pid` (raising a `KeyError`
when absent), applies the step-specific `func` to the record and the
`delta_build` dict, deep-merges the delta into the build and persists it
with `replace_one`.  Sets stage `DONE`. -/
def _done (ind : Indexer) (rs : RegState) (now : Int)
    (func : Fields → Fields → Fields × Fields) (coll : Coll) :
    Except RegErr (RegState × Coll) :=
  if rs.stage = Stage.STARTED then
    match find_one coll ind.build_name with
    | none => Except.error (RegErr.assertionError
        ("Can't find build document '" ++ ind.build_name ++ "'"))
    | some build =>
      match getKey build "jobs" with
      | some (Val.vList js) =>
        match js.getLast? with
        | none => Except.error RegErr.indexError
        | some (Val.vObj jf) =>
          let jf := setKey jf "time" (timesofar rs.t0 now)
          let jf := setKey jf "time_in_s" (Val.vInt (now - rs.t0))
          match getKey jf "pid" with
          | none => Except.error (RegErr.keyError "pid")
          | some _ =>
            let jf := eraseKey jf "pid"
            let (jf, delta) := func jf []
            let build := setKey build "jobs" (Val.vList (js.dropLast ++ [Val.vObj jf]))
            let build := mergeFields build delta
            Except.ok ({ stage := Stage.DONE, t0 := rs.t0 },
              replace_one coll ind.build_name build)
        | some _ => Except.error RegErr.typeError
      | some _ => Except.error RegErr.typeError
      | none => Except.error (RegErr.keyError "jobs")
  else Except.error (RegErr.assertionError "")

/-- `IndexJobStateRegistrar.failed(error)`: finalize the last Job record
with status `"failed"` and `err = str(error)`; the delta dict is left
empty. -/
def failed (ind : Indexer) (rs : RegState) (now : Int) (error : String)
    (coll : Coll) : Except RegErr (RegState × Coll) :=
  _done ind rs now
    (fun jf delta =>
      (setKey (setKey jf "status" (Val.vStr "failed")) "err" (Val.vStr error), delta))
    coll

/-- `IndexJobStateRegistrar.succeed(result)`: finalize the last Job record
with status `"success"`; when `result.pop("__READY__", False)` is truthy,
set `delta_build["index"] = {es_index_name: result}` (with `__READY__`
popped from `result`). -/
def succeed (ind : Indexer) (rs : RegState) (now : Int) (result : Fields)
    (coll : Coll) : Except RegErr (RegState × Coll) :=
  _done ind rs now
    (fun jf delta =>
      let jf := setKey jf "status" (Val.vStr "success")
      let ready :=
        match getKey result "__READY__" with
        | some v => v.truthy
        | none => false
      let result := eraseKey result "__READY__"
      if ready then
        (jf, setKey delta "index" (Val.vObj [(ind.es_index_name, Val.vObj result)]))
      else (jf, delta))
    coll

end IndexJobStateRegistrar

/-- `PreIndexJSR.started()`: the pre-step variant fixes the label. -/
def PreIndexJSR.started (ind : Indexer) (rs : RegState) (now : Int)
    (nowDT : Val) (pid : Int) (coll : Coll) : Except RegErr (RegState × Coll) :=
  IndexJobStateRegistrar.started ind "pre-index" rs now nowDT pid coll

/-- `PostIndexJSR.started()`: the post-step variant fixes the label. -/
def PostIndexJSR.started (ind : Indexer) (rs : RegState) (now : Int)
    (nowDT : Val) (pid : Int) (coll : Coll) : Except RegErr (RegState × Coll) :=
  IndexJobStateRegistrar.started ind "post-index" rs now nowDT pid coll

/-- `MainIndexJSR.started()`: the main-step variant fixes the label. -/
def MainIndexJSR.started (ind : Indexer) (rs : RegState) (now : Int)
    (nowDT : Val) (pid : Int) (coll : Coll) : Except RegErr (RegState × Coll) :=
  IndexJobStateRegistrar.started ind "index" rs now nowDT pid coll

/-- The `_result` seed of `MainIndexJSR.succeed`: index-environment
metadata (display host, environment name, creation timestamp) keyed by
the index name and marked `__REPLACE__` for full replacement. -/
def mainIndexSeed (ind : Indexer) (created_at : Val) : Fields :=
  [(ind.es_index_name, Val.vObj [
    ("__REPLACE__", Val.vBool true),
    ("host", ind.es_hosts),
    ("environment", Val.vStr ind.env_name),
    ("created_at", created_at)])]

/-- `MainIndexJSR.succeed(result)`: seed the result with the
index-environment metadata, deep-merge the caller's `result` on top
(`merge(_result, result)`, so caller-supplied fields win), then delegate
to the base `succeed`. -/
def MainIndexJSR.succeed (ind : Indexer) (rs : RegState) (now : Int)
    (created_at : Val) (result : Fields) (coll : Coll) :
    Except RegErr (RegState × Coll) :=
  IndexJobStateRegistrar.succeed ind rs now
    (mergeFields (mainIndexSeed ind created_at) result) coll

/-- Python `str()` of a value spliced into a templated string by the
dotted-path substitution.  Only string and scalar lookups are exercised
by the repository configurations this spec covers. -/
def valToString : Val → String
  | Val.vStr s => s
  | Val.vInt n => toString n
  | Val.vBool b => if b then "True" else "False"
  | Val.vNull => "None"
  | Val.vList _ => ""
  | Val.vObj _ => ""

/-- Walk a dotted field path through nested objects. -/
def lookupDotGo : Val → List String → Option Val
  | v, [] => some v
  | Val.vObj fs, p :: rest =>
    match getKey fs p with
    | some v => lookupDotGo v rest
    | none => none
  | _, _ :: _ => none

/-- Split a field path at every `.` (Python `path.split(".")`); `cur`
accumulates the current component in reverse. -/
def splitDotsGo (cur : List Char) : List Char → List String
  | [] => [String.mk cur.reverse]
  | c :: rest =>
    if c = '.' then String.mk cur.reverse :: splitDotsGo [] rest
    else splitDotsGo (c :: cur) rest

/-- Dotted-field lookup (`%(a.b.c)s`) into a build document. -/
def lookupDot (doc : Fields) (path : String) : Option Val :=
  lookupDotGo (Val.vObj doc) (splitDotsGo [] path.data)

/-- Scan for the closing `)s` of a `%(...)s` placeholder: returns the
path characters before the first `)s` and the characters after it. -/
def breakTmpl : List Char → Option (List Char × List Char)
  | [] => none
  | c :: rest =>
    if c = ')' ∧ rest.head? = some 's' then some ([], rest.tail)
    else (breakTmpl rest).map (fun pr => (c :: pr.1, pr.2))

theorem breakTmpl_length (cs : List Char) : ∀ p r, breakTmpl cs = some (p, r) →
    r.length + 2 ≤ cs.length := by
  induction cs with
  | nil => intro p r h; simp [breakTmpl] at h
  | cons c rest ih =>
    intro p r h
    rw [breakTmpl] at h
    split at h
    · rename_i hc
      obtain ⟨hc1, hc2⟩ := hc
      obtain ⟨hp, hr⟩ := (Prod.mk.injEq _ _ _ _).mp (Option.some.inj h)
      cases rest with
      | nil => simp at hc2
      | cons a t =>
        simp at hc2
        subst hc2
        subst hr
        simp
    · rw [Option.map_eq_some'] at h
      obtain ⟨⟨p', r'⟩, hbr, hfr⟩ := h
      obtain ⟨hp, hr⟩ := (Prod.mk.injEq _ _ _ _).mp hfr
      subst hr
      have := ih p' r' hbr
      simp
      omega

/-- Substitute every `%(path)s` placeholder whose dotted path resolves in
the build document; a placeholder whose path is missing is left in
place (so that the caller's leftover-`%` check reports it). -/
def substPct (doc : Fields) : List Char → List Char
  | [] => []
  | c :: rest =>
    if c = '%' ∧ rest.head? = some '(' then
      match h : breakTmpl rest.tail with
      | some (p, r') =>
        match lookupDot doc (String.mk p) with
        | some v => (valToString v).data ++ substPct doc r'
        | none => '%' :: '(' :: (p ++ ')' :: 's' :: substPct doc r')
      | none => c :: rest
    else c :: substPct doc rest
termination_by cs => cs.length
decreasing_by
  all_goals simp_wf
  all_goals have hb := breakTmpl_length rest.tail p r' h
  all_goals cases rest <;> simp_all <;> omega

/-- Substitute every `$(Y)` macro with the current year. -/
def substY (year : List Char) : List Char → List Char
  | '$' :: '(' :: 'Y' :: ')' :: rest => year ++ substY year rest
  | c :: rest => c :: substY year rest
  | [] => []

/-- Modelled from the spec: `biothings.utils.hub.template_out` is not
under `src/`.  Per the spec it substitutes `%(dotted.field.path)s` with
the value looked up in the associated build document and `$(Y)` with the
current year; an unresolved placeholder survives substitution. -/
def template_out (s : String) (doc : Fields) (year : String) : String :=
  String.mk (substY year.data (substPct doc s.data))

mutual

/-- Apply a string transformation to every string leaf of a value. -/
def mapStrVal (f : String → String) : Val → Val
  | Val.vStr s => Val.vStr (f s)
  | Val.vList xs => Val.vList (mapStrList f xs)
  | Val.vObj fs => Val.vObj (mapStrFields f fs)
  | v => v

def mapStrList (f : String → String) : List Val → List Val
  | [] => []
  | v :: rest => mapStrVal f v :: mapStrList f rest

def mapStrFields (f : String → String) : Fields → Fields
  | [] => []
  | (k, v) :: rest => (k, mapStrVal f v) :: mapStrFields f rest

end

mutual

/-- Does any string leaf of a value contain a `%` character? -/
def hasPctVal : Val → Bool
  | Val.vStr s => s.data.contains '%'
  | Val.vList xs => hasPctList xs
  | Val.vObj fs => hasPctFields fs
  | _ => false

def hasPctList : List Val → Bool
  | [] => false
  | v :: rest => hasPctVal v || hasPctList rest

def hasPctFields : Fields → Bool
  | [] => false
  | (_, v) :: rest => hasPctVal v || hasPctFields rest

end

/-- `RepositoryConfig.format(doc)`: template every string of the config
against the build document and the current year, then raise
`ValueError("Failed to template.")` when a `%` remains anywhere in the
templated output.  The `json.dumps` / `template_out` / `json.loads`
round trip of the source is modelled as templating each string leaf of
the config in place, and the `"%" in string` test on the dump as a `%`
in any templated string leaf (the keys of a repository config are
literals). -/
def RepositoryConfig.format (cfg : Fields) (doc : Fields) (year : String) :
    Except String Fields :=
  let t := mapStrFields (fun s => template_out s doc year) cfg
  if hasPctFields t then Except.error "Failed to template." else Except.ok t

/-- One storage-provisioning side effect of the pre phase:
`bucket.create(acl)` or `repo.create(**settings)`. -/
inductive ProvCall where
  | createBucket : String → ProvCall
  | createRepository : ProvCall
deriving DecidableEq

/-- The external backend state read by the pre phase: whether the
configured bucket and the configured repository exist.  The
object-storage and search-engine clients (`Bucket.exists` /
`Repository.exists`) are capability interfaces per the spec; their
answers are this state. -/
structure ProvState where
  bucketExists : Bool
  repoExists : Bool
deriving DecidableEq

/-- `SnapshotEnv.pre_snapshot`: if the repository is missing, first
ensure the bucket exists (create it only when absent), then create the
repository; if the repository exists, do nothing.  Returns the backend
state afterwards, the ordered list of creation calls issued, and the
step result `{"indexer_env": ..., "environment": ...}`. -/
def SnapshotEnv.pre_snapshot (st : ProvState) (acl : String)
    (idxenv envname : String) : (ProvState × List ProvCall) × Fields :=
  (if st.repoExists then (st, [])
   else if st.bucketExists then
     ({ st with repoExists := true }, [ProvCall.createRepository])
   else
     ({ bucketExists := true, repoExists := true },
      [ProvCall.createBucket acl, ProvCall.createRepository]),
   [("indexer_env", Val.vStr idxenv), ("environment", Val.vStr envname)])

/-- The polling loop of `SnapshotEnv._snapshot`, driven by the sequence
of states the snapshot backend reports: `FAILED` raises
`ValueError("FAILED")`, `SUCCESS` exits the loop, anything else sleeps
and re-polls.  `none` means no terminal state was ever reported: the
loop does not return. -/
def pollLoop : List String → Option (Except String Unit)
  | [] => none
  | s :: rest =>
    if s = "FAILED" then some (Except.error "FAILED")
    else if s = "SUCCESS" then some (Except.ok ())
    else pollLoop rest

/-- `SnapshotEnv._snapshot`: when a snapshot with the target name already
exists it is deleted first and `_replace` is recorded; then the snapshot
is created and polled to a terminal state.  The first component of the
result says whether the pre-existing snapshot was deleted; on success
the step result is exactly `{"replaced": _replace, "created_at": now}`.
The snapshot backend (`snapshot_task.Snapshot`) is a capability
interface per the spec: `snapExists` is its answer to `exists()` and
`polls` the successive answers to `state()`. -/
def SnapshotEnv._snapshot (snapExists : Bool) (polls : List String)
    (created_at : Val) : Option (Bool × Except String Fields) :=
  match pollLoop polls with
  | none => none
  | some (Except.error e) => some (snapExists, Except.error e)
  | some (Except.ok _) =>
    some (snapExists,
      Except.ok [("replaced", Val.vBool snapExists), ("created_at", created_at)])

/-- Modelled from the spec: the `snapshot_registrar` module is not under
`src/`.  Per the spec its step variants follow the same stage machine as
`IndexJobStateRegistrar`: `started` appends a Job record with the step
label and status `"in progress"` to the build's job log. -/
def snapStarted (step : String) (doc : Fields) : Fields :=
  pushJob doc (Val.vObj [("step", Val.vStr step), ("status", Val.vStr "in progress")])

/-- Rewrite the last Job record of a build document. -/
def markLastJob (f : Val → Val) (doc : Fields) : Fields :=
  match getKey doc "jobs" with
  | some (Val.vList js) =>
    match js.getLast? with
    | some j => setKey doc "jobs" (Val.vList (js.dropLast ++ [f j]))
    | none => doc
  | _ => doc

/-- Modelled from the spec: the snapshot registrar's `failed` marks the
last Job record `"failed"` and records the stringified error. -/
def snapFailed (e : String) (doc : Fields) : Fields :=
  markLastJob (fun j =>
    match j with
    | Val.vObj jf =>
      Val.vObj (setKey (setKey jf "status" (Val.vStr "failed")) "err" (Val.vStr e))
    | j => j) doc

/-- Modelled from the spec: the snapshot registrar's `succeed` marks the
last Job record `"success"` (the snapshot-step variants write nothing
else that these claims observe). -/
def snapSucceed (doc : Fields) : Fields :=
  markLastJob (fun j =>
    match j with
    | Val.vObj jf => Val.vObj (setKey jf "status" (Val.vStr "success"))
    | j => j) doc

/-- The phase loop of `SnapshotEnv.snapshot`: for each step in order,
`state.started()`, run the phase body, and either `state.failed(exc)`
and re-raise — aborting the remaining phases — or deep-merge the step
result into the cumulative result and `state.succeed(...)`.  `bodies`
gives each phase body's outcome; the pair returned is the pipeline
outcome (the cumulative result, or the propagated fault) and the final
build document. -/
def runSteps (bodies : String → Except String Fields) :
    List String → Fields → Fields → Except String Fields × Fields
  | [], doc, x => (Except.ok x, doc)
  | step :: rest, doc, x =>
    let doc1 := snapStarted step doc
    match bodies step with
    | Except.error e => (Except.error e, snapFailed e doc1)
    | Except.ok dx =>
      runSteps bodies rest (snapSucceed doc1) (mergeFields x dx)

/-- `SnapshotEnv.snapshot`: drive the ordered phases
`pre → snapshot → post` against one build document, starting from an
empty cumulative result. -/
def SnapshotEnv.snapshot (bodies : String → Except String Fields)
    (doc : Fields) : Except String Fields × Fields :=
  runSteps bodies ["pre", "snapshot", "post"] doc []

/-! Association-list lemmas: reading, writing and deleting keys. -/

theorem getKey_setKey_self (x : Fields) (k : String) (v : Val) :
    getKey (setKey x k v) k = some v := by
  induction x with
  | nil => simp [setKey, getKey]
  | cons kv rest ih =>
    obtain ⟨k1, v1⟩ := kv
    by_cases h : k1 = k <;> simp [setKey, getKey, h, ih]

theorem getKey_setKey_ne (x : Fields) (k k' : String) (v : Val) (h : k' ≠ k) :
    getKey (setKey x k v) k' = getKey x k' := by
  have h' : ¬ k = k' := fun hh => h hh.symm
  induction x with
  | nil => simp [setKey, getKey, h']
  | cons kv rest ih =>
    obtain ⟨k1, v1⟩ := kv
    by_cases h1 : k1 = k
    · subst h1
      simp [setKey, getKey, h']
    · by_cases h2 : k1 = k' <;> simp [setKey, getKey, h1, h2, h, ih]

theorem setKey_of_getKey (x : Fields) (k : String) (v : Val)
    (h : getKey x k = some v) : setKey x k v = x := by
  induction x with
  | nil => simp [getKey] at h
  | cons kv rest ih =>
    obtain ⟨k1, v1⟩ := kv
    by_cases h1 : k1 = k
    · subst h1
      simp [getKey] at h
      simp [setKey, h]
    · simp [getKey, h1] at h
      simp [setKey, h1, ih h]

theorem setKey_setKey (x : Fields) (k : String) (v w : Val) :
    setKey (setKey x k v) k w = setKey x k w := by
  induction x with
  | nil => simp [setKey]
  | cons kv rest ih =>
    obtain ⟨k1, v1⟩ := kv
    by_cases h : k1 = k <;> simp [setKey, h, ih]

theorem getKey_eraseKey_self (x : Fields) (k : String) :
    getKey (eraseKey x k) k = none := by
  induction x with
  | nil => simp [eraseKey, getKey]
  | cons kv rest ih =>
    obtain ⟨k1, v1⟩ := kv
    by_cases h : k1 = k <;> simp [eraseKey, getKey, h, ih]

theorem getKey_eraseKey_ne (x : Fields) (k k' : String) (h : k' ≠ k) :
    getKey (eraseKey x k) k' = getKey x k' := by
  have h' : ¬ k = k' := fun hh => h hh.symm
  induction x with
  | nil => simp [eraseKey]
  | cons kv rest ih =>
    obtain ⟨k1, v1⟩ := kv
    by_cases h1 : k1 = k
    · subst h1
      simp [eraseKey, getKey, h', ih]
    · by_cases h2 : k1 = k' <;> simp [eraseKey, getKey, h1, h2, h, ih]

/-! Lemmas about the deep merge. -/

theorem mergeGo_nil (x : Fields) : mergeGo x [] = x :=
  mergeGo.eq_1 x

theorem mergeFields_nil (x : Fields) : mergeFields x [] = x := by
  simp [mergeFields, replFlag, getKey, mergeGo_nil]

theorem mergeVal_nonObj (x : Fields) (k : String) (v : Val)
    (h : ∀ fs, v ≠ Val.vObj fs) : mergeVal x k v = v :=
  mergeVal.eq_2 x k v (fun dv hdv => h dv hdv)

theorem mergeGo_getKey_notin : ∀ (dx x : Fields) (k : String),
    k ∉ dx.map Prod.fst → getKey (mergeGo x dx) k = getKey x k := by
  intro dx
  induction dx with
  | nil => intro x k _; rw [mergeGo_nil]
  | cons kv rest ih =>
    obtain ⟨k1, v1⟩ := kv
    intro x k hk
    rw [List.map_cons] at hk
    have hk1 : k ≠ k1 := fun hh => hk (hh ▸ List.mem_cons_self _ _)
    have hkrest : k ∉ rest.map Prod.fst := fun hh => hk (List.mem_cons_of_mem _ hh)
    rw [mergeGo.eq_2]
    by_cases hrep : k1 = "__REPLACE__"
    · rw [if_pos hrep, ih _ _ hkrest]
    · rw [if_neg hrep, ih _ _ hkrest, getKey_setKey_ne _ _ _ _ hk1]

theorem mergeGo_getKey_right : ∀ (dx y : Fields) (k : String) (v : Val),
    (dx.map Prod.fst).Nodup → getKey dx k = some v →
    (∀ fs, v ≠ Val.vObj fs) → k ≠ "__REPLACE__" →
    getKey (mergeGo y dx) k = some v := by
  intro dx
  induction dx with
  | nil => intro y k v _ hg _ _; simp [getKey] at hg
  | cons kv rest ih =>
    obtain ⟨k1, v1⟩ := kv
    intro y k v hnd hg hobj hrep
    rw [List.map_cons, List.nodup_cons] at hnd
    obtain ⟨hk1rest, hndrest⟩ := hnd
    rw [mergeGo.eq_2]
    by_cases hr1 : k1 = "__REPLACE__"
    · have hk1k : ¬ k1 = k := fun hh => hrep (hh ▸ hr1)
      rw [if_pos hr1]
      rw [getKey, if_neg hk1k] at hg
      exact ih _ _ _ hndrest hg hobj hrep
    · rw [if_neg hr1]
      by_cases hkk : k1 = k
      · subst hkk
        rw [getKey, if_pos rfl] at hg
        have hv : v1 = v := Option.some.inj hg
        subst hv
        rw [mergeGo_getKey_notin _ _ _ hk1rest]
        rw [mergeVal_nonObj _ _ _ hobj, getKey_setKey_self]
      · rw [getKey, if_neg hkk] at hg
        exact ih _ _ _ hndrest hg hobj hrep

theorem mergeFields_getKey_right (x dx : Fields) (k : String) (v : Val)
    (hnd : (dx.map Prod.fst).Nodup) (hget : getKey dx k = some v)
    (hobj : ∀ fs, v ≠ Val.vObj fs) (hrep : k ≠ "__REPLACE__") :
    getKey (mergeFields x dx) k = some v := by
  rw [mergeFields]
  exact mergeGo_getKey_right dx _ k v hnd hget hobj hrep

/-! Small lemmas about the document store. -/

theorem find_one_cons_self (doc : Fields) (rest : Coll) (id : String)
    (h : idMatches doc id = true) : find_one (doc :: rest) id = some doc := by
  simp [find_one, List.find?, h]

theorem updateFirst_cons_self (doc : Fields) (rest : Coll) (id : String)
    (f : Fields → Fields) (h : idMatches doc id = true) :
    updateFirst (doc :: rest) id f = f doc :: rest := by
  simp [updateFirst, h]

theorem idMatches_of_getKey (doc : Fields) (id : String)
    (h : getKey doc "_id" = some (Val.vStr id)) : idMatches doc id = true := by
  simp [idMatches, h]

/-- Every successful `_done` call leaves the registrar in stage `DONE`. -/
theorem done_ok_stage (ind : Indexer) (rs : RegState) (now : Int)
    (func : Fields → Fields → Fields × Fields) (coll : Coll)
    (rs' : RegState) (c' : Coll)
    (h : IndexJobStateRegistrar._done ind rs now func coll = Except.ok (rs', c')) :
    rs'.stage = Stage.DONE := by
  unfold IndexJobStateRegistrar._done at h
  dsimp only [] at h
  repeat' split at h
  all_goals simp at h
  all_goals (
    obtain ⟨h1, h2⟩ := h
    subst h1
    rfl)

/-- Claim C2: `started()` requires the in-memory stage to be `READY` and
otherwise raises an invalid-state fault, so a second `started()` without
an intervening `succeed()`/`failed()` raises; `succeed()`/`failed()`
require the stage to be `STARTED` and otherwise raise — in particular
before any `started()`, or called twice; a successful `started()` moves
the stage to `STARTED` and a successful completion moves it to `DONE`,
so each registrar instance observes `READY → STARTED → DONE` exactly
once. -/
theorem c2_stage_machine (ind : Indexer) (step : String) (rs : RegState)
    (now now2 : Int) (nowDT : Val) (pid : Int) (error : String)
    (result : Fields) (coll coll2 : Coll) :
    (rs.stage ≠ Stage.READY →
      IndexJobStateRegistrar.started ind step rs now nowDT pid coll =
        Except.error (RegErr.assertionError "")) ∧
    (rs.stage = Stage.READY → ∃ c1 : Coll,
      IndexJobStateRegistrar.started ind step rs now nowDT pid coll =
        Except.ok ({ stage := Stage.STARTED, t0 := now }, c1) ∧
      ∀ (nowDT2 : Val) (pid2 now3 : Int),
        IndexJobStateRegistrar.started ind step
          { stage := Stage.STARTED, t0 := now } now3 nowDT2 pid2 c1 =
          Except.error (RegErr.assertionError "")) ∧
    (rs.stage ≠ Stage.STARTED →
      IndexJobStateRegistrar.failed ind rs now2 error coll2 =
        Except.error (RegErr.assertionError "") ∧
      IndexJobStateRegistrar.succeed ind rs now2 result coll2 =
        Except.error (RegErr.assertionError "")) ∧
    (∀ (rs' : RegState) (c' : Coll),
      IndexJobStateRegistrar.failed ind rs now2 error coll2 = Except.ok (rs', c') →
      rs'.stage = Stage.DONE) ∧
    (∀ (rs' : RegState) (c' : Coll),
      IndexJobStateRegistrar.succeed ind rs now2 result coll2 = Except.ok (rs', c') →
      rs'.stage = Stage.DONE) := by
  refine ⟨?_, ?_, ?_, ?_, ?_⟩
  · intro hne
    unfold IndexJobStateRegistrar.started
    rw [if_neg hne]
  · intro hr
    refine ⟨updateFirst coll ind.build_name (fun doc => pushJob doc (Val.vObj [
        ("step", Val.vStr step), ("status", Val.vStr "in progress"),
        ("step_started_at", nowDT), ("logfile", Val.vStr ind.logfile),
        ("pid", Val.vInt pid)])), ?_, ?_⟩
    · unfold IndexJobStateRegistrar.started
      rw [if_pos hr]
    · intro nowDT2 pid2 now3
      unfold IndexJobStateRegistrar.started
      rw [if_neg (by simp)]
  · intro hne
    constructor
    · unfold IndexJobStateRegistrar.failed IndexJobStateRegistrar._done
      rw [if_neg hne]
    · unfold IndexJobStateRegistrar.succeed IndexJobStateRegistrar._done
      rw [if_neg hne]
  · intro rs' c' h
    exact done_ok_stage _ _ _ _ _ _ _ h
  · intro rs' c' h
    exact done_ok_stage _ _ _ _ _ _ _ h

/-- Witness for C2: concrete runs exercising every guard — `started()`
in stage `DONE` raises, `started()` in stage `READY` succeeds and an
immediate second `started()` raises, `failed()`/`succeed()` in stage
`READY` raise, and a concrete successful `failed()` ends in stage
`DONE`. -/
theorem c2_witness :
    IndexJobStateRegistrar.started ⟨"b", "i", "/l", Val.vNull, "e"⟩ "index"
      { stage := Stage.DONE, t0 := 0 } 1 Val.vNull 7 [] =
      Except.error (RegErr.assertionError "") ∧
    (∃ c1 : Coll,
      IndexJobStateRegistrar.started ⟨"b", "i", "/l", Val.vNull, "e"⟩ "index"
        { stage := Stage.READY, t0 := 0 } 1 Val.vNull 7 [] =
        Except.ok ({ stage := Stage.STARTED, t0 := 1 }, c1) ∧
      ∀ (nowDT2 : Val) (pid2 now3 : Int),
        IndexJobStateRegistrar.started ⟨"b", "i", "/l", Val.vNull, "e"⟩ "index"
          { stage := Stage.STARTED, t0 := 1 } now3 nowDT2 pid2 c1 =
          Except.error (RegErr.assertionError "")) ∧
    (IndexJobStateRegistrar.failed ⟨"b", "i", "/l", Val.vNull, "e"⟩
        { stage := Stage.READY, t0 := 0 } 1 "err" [] =
        Except.error (RegErr.assertionError "") ∧
      IndexJobStateRegistrar.succeed ⟨"b", "i", "/l", Val.vNull, "e"⟩
        { stage := Stage.READY, t0 := 0 } 1 [] [] =
        Except.error (RegErr.assertionError "")) ∧
    (RegState.mk Stage.DONE 0).stage = Stage.DONE := by
  refine ⟨?_, ?_, ?_, ?_⟩
  · exact (c2_stage_machine ⟨"b", "i", "/l", Val.vNull, "e"⟩ "index"
      { stage := Stage.DONE, t0 := 0 } 1 1 Val.vNull 7 "err" [] [] []).1 (by decide)
  · exact (c2_stage_machine ⟨"b", "i", "/l", Val.vNull, "e"⟩ "index"
      { stage := Stage.READY, t0 := 0 } 1 1 Val.vNull 7 "err" [] [] []).2.1 rfl
  · exact (c2_stage_machine ⟨"b", "i", "/l", Val.vNull, "e"⟩ "index"
      { stage := Stage.READY, t0 := 0 } 1 1 Val.vNull 7 "err" [] [] []).2.2.1 (by decide)
  · exact (c2_stage_machine ⟨"b", "i", "/l", Val.vNull, "e"⟩ "index"
      { stage := Stage.STARTED, t0 := 0 } 1 1 Val.vNull 7 "err" [] []
      [[("_id", Val.vStr "b"), ("jobs", Val.vList [Val.vObj [("pid", Val.vInt 7)]])]]).2.2.2.1
      { stage := Stage.DONE, t0 := 0 }
      [[("_id", Val.vStr "b"),
        ("jobs", Val.vList [Val.vObj [
          ("time", timesofar 0 1), ("time_in_s", Val.vInt (1 - 0)),
          ("status", Val.vStr "failed"), ("err", Val.vStr "err")]])]]
      (by simp [IndexJobStateRegistrar.failed, IndexJobStateRegistrar._done, find_one,
        List.find?, idMatches, getKey, setKey, eraseKey, mergeFields_nil,
        replace_one, updateFirst])

/-- Claim C10: when `succeed()` or `failed()` runs in stage `STARTED` but
the last Job record of the loaded build document has no `pid` field (for
example because a prune pass already rewrote it, or another run's
completed record is last), the finalize step raises a missing-key error
instead of completing: `job.pop("pid")` in `_done` is unguarded, unlike
`prune`'s `job.pop("pid", None)`. -/
theorem c10_unguarded_pid_pop (ind : Indexer) (rs : RegState) (now : Int)
    (error : String) (result : Fields) (coll : Coll) (build : Fields)
    (js : List Val) (jf : Fields)
    (hstage : rs.stage = Stage.STARTED)
    (hfind : find_one coll ind.build_name = some build)
    (hjobs : getKey build "jobs" = some (Val.vList js))
    (hlast : js.getLast? = some (Val.vObj jf))
    (hpid : getKey jf "pid" = none) :
    IndexJobStateRegistrar.failed ind rs now error coll =
      Except.error (RegErr.keyError "pid") ∧
    IndexJobStateRegistrar.succeed ind rs now result coll =
      Except.error (RegErr.keyError "pid") := by
  have hp : getKey (setKey (setKey jf "time" (timesofar rs.t0 now)) "time_in_s"
      (Val.vInt (now - rs.t0))) "pid" = none := by
    rw [getKey_setKey_ne _ _ _ _ (by decide), getKey_setKey_ne _ _ _ _ (by decide), hpid]
  constructor
  · unfold IndexJobStateRegistrar.failed IndexJobStateRegistrar._done
    rw [if_pos hstage, hfind]
    simp only [hjobs, hlast, hp]
  · unfold IndexJobStateRegistrar.succeed IndexJobStateRegistrar._done
    rw [if_pos hstage, hfind]
    simp only [hjobs, hlast, hp]

/-- Witness for C10: a build whose only Job record was already pruned
(status `"cancelled"`, no `pid`) makes both finalizers raise the
missing-key error. -/
theorem c10_witness :
    IndexJobStateRegistrar.failed ⟨"b", "i", "/l", Val.vNull, "e"⟩
      { stage := Stage.STARTED, t0 := 0 } 1 "err"
      [[("_id", Val.vStr "b"),
        ("jobs", Val.vList [Val.vObj [("status", Val.vStr "cancelled")]])]] =
      Except.error (RegErr.keyError "pid") ∧
    IndexJobStateRegistrar.succeed ⟨"b", "i", "/l", Val.vNull, "e"⟩
      { stage := Stage.STARTED, t0 := 0 } 1 []
      [[("_id", Val.vStr "b"),
        ("jobs", Val.vList [Val.vObj [("status", Val.vStr "cancelled")]])]] =
      Except.error (RegErr.keyError "pid") :=
  c10_unguarded_pid_pop ⟨"b", "i", "/l", Val.vNull, "e"⟩
    { stage := Stage.STARTED, t0 := 0 } 1 "err" []
    [[("_id", Val.vStr "b"),
      ("jobs", Val.vList [Val.vObj [("status", Val.vStr "cancelled")]])]]
    [("_id", Val.vStr "b"),
     ("jobs", Val.vList [Val.vObj [("status", Val.vStr "cancelled")]])]
    [Val.vObj [("status", Val.vStr "cancelled")]]
    [("status", Val.vStr "cancelled")]
    rfl rfl rfl rfl rfl

/-- Claim C9: `failed(error)` in stage `STARTED` on an existing build
document modifies only the last Job record — it receives status
`"failed"`, `err` equal to the stringified error and the duration
fields, and loses `pid` — and every other field of the build document
(in particular `index` and `pending`) is unchanged by the finalize,
which ends in stage `DONE`. -/
theorem c9_failed_frame (ind : Indexer) (rs : RegState) (now : Int)
    (error : String) (build : Fields) (js : List Val) (jf : Fields) (pv : Val)
    (hstage : rs.stage = Stage.STARTED)
    (hid : getKey build "_id" = some (Val.vStr ind.build_name))
    (hjobs : getKey build "jobs" = some (Val.vList (js ++ [Val.vObj jf])))
    (hpid : getKey jf "pid" = some pv) :
    ∃ jf' : Fields,
      IndexJobStateRegistrar.failed ind rs now error [build] =
        Except.ok ({ stage := Stage.DONE, t0 := rs.t0 },
          [setKey build "jobs" (Val.vList (js ++ [Val.vObj jf']))]) ∧
      getKey jf' "status" = some (Val.vStr "failed") ∧
      getKey jf' "err" = some (Val.vStr error) ∧
      getKey jf' "pid" = none ∧
      getKey jf' "time" = some (timesofar rs.t0 now) ∧
      getKey jf' "time_in_s" = some (Val.vInt (now - rs.t0)) ∧
      (∀ k, k ≠ "status" → k ≠ "err" → k ≠ "pid" → k ≠ "time" → k ≠ "time_in_s" →
        getKey jf' k = getKey jf k) ∧
      (∀ k, k ≠ "jobs" →
        getKey (setKey build "jobs" (Val.vList (js ++ [Val.vObj jf']))) k =
          getKey build k) := by
  have him : idMatches build ind.build_name = true := idMatches_of_getKey _ _ hid
  have hp : getKey (setKey (setKey jf "time" (timesofar rs.t0 now)) "time_in_s"
      (Val.vInt (now - rs.t0))) "pid" = some pv := by
    rw [getKey_setKey_ne _ _ _ _ (by decide), getKey_setKey_ne _ _ _ _ (by decide), hpid]
  refine ⟨setKey (setKey (eraseKey (setKey (setKey jf "time" (timesofar rs.t0 now))
      "time_in_s" (Val.vInt (now - rs.t0))) "pid") "status" (Val.vStr "failed"))
      "err" (Val.vStr error), ?_, ?_, ?_, ?_, ?_, ?_, ?_, ?_⟩
  · unfold IndexJobStateRegistrar.failed IndexJobStateRegistrar._done
    rw [if_pos hstage, find_one_cons_self _ _ _ him]
    simp only [hjobs, List.getLast?_concat, List.dropLast_concat, hp, mergeFields_nil,
      replace_one, updateFirst, him, if_true]
  · rw [getKey_setKey_ne _ _ _ _ (by decide), getKey_setKey_self]
  · rw [getKey_setKey_self]
  · rw [getKey_setKey_ne _ _ _ _ (by decide), getKey_setKey_ne _ _ _ _ (by decide),
      getKey_eraseKey_self]
  · rw [getKey_setKey_ne _ _ _ _ (by decide), getKey_setKey_ne _ _ _ _ (by decide),
      getKey_eraseKey_ne _ _ _ (by decide), getKey_setKey_ne _ _ _ _ (by decide),
      getKey_setKey_self]
  · rw [getKey_setKey_ne _ _ _ _ (by decide), getKey_setKey_ne _ _ _ _ (by decide),
      getKey_eraseKey_ne _ _ _ (by decide), getKey_setKey_self]
  · intro k h1 h2 h3 h4 h5
    rw [getKey_setKey_ne _ _ _ _ h2, getKey_setKey_ne _ _ _ _ h1,
      getKey_eraseKey_ne _ _ _ h3, getKey_setKey_ne _ _ _ _ h5,
      getKey_setKey_ne _ _ _ _ h4]
  · intro k hk
    rw [getKey_setKey_ne _ _ _ _ hk]

/-- Witness for C9: a concrete `failed("boom")` on a build document with
one prior job and one running job. -/
theorem c9_witness :
    ∃ jf' : Fields,
      IndexJobStateRegistrar.failed ⟨"b", "i", "/l", Val.vNull, "e"⟩
        { stage := Stage.STARTED, t0 := 2 } 5 "boom"
        [[("_id", Val.vStr "b"), ("pending", Val.vList [Val.vStr "snapshot"]),
          ("jobs", Val.vList ([Val.vObj [("step", Val.vStr "pre-index"),
              ("status", Val.vStr "success")]] ++
            [Val.vObj [("step", Val.vStr "index"),
              ("status", Val.vStr "in progress"), ("pid", Val.vInt 7)]]))]] =
        Except.ok ({ stage := Stage.DONE, t0 := 2 },
          [setKey [("_id", Val.vStr "b"), ("pending", Val.vList [Val.vStr "snapshot"]),
            ("jobs", Val.vList ([Val.vObj [("step", Val.vStr "pre-index"),
                ("status", Val.vStr "success")]] ++
              [Val.vObj [("step", Val.vStr "index"),
                ("status", Val.vStr "in progress"), ("pid", Val.vInt 7)]]))]
            "jobs" (Val.vList ([Val.vObj [("step", Val.vStr "pre-index"),
              ("status", Val.vStr "success")]] ++ [Val.vObj jf']))]) ∧
      getKey jf' "status" = some (Val.vStr "failed") ∧
      getKey jf' "err" = some (Val.vStr "boom") ∧
      getKey jf' "pid" = none ∧
      getKey jf' "time" = some (timesofar 2 5) ∧
      getKey jf' "time_in_s" = some (Val.vInt (5 - 2)) ∧
      (∀ k, k ≠ "status" → k ≠ "err" → k ≠ "pid" → k ≠ "time" → k ≠ "time_in_s" →
        getKey jf' k = getKey [("step", Val.vStr "index"),
          ("status", Val.vStr "in progress"), ("pid", Val.vInt 7)] k) ∧
      (∀ k, k ≠ "jobs" →
        getKey (setKey [("_id", Val.vStr "b"),
            ("pending", Val.vList [Val.vStr "snapshot"]),
            ("jobs", Val.vList ([Val.vObj [("step", Val.vStr "pre-index"),
                ("status", Val.vStr "success")]] ++
              [Val.vObj [("step", Val.vStr "index"),
                ("status", Val.vStr "in progress"), ("pid", Val.vInt 7)]]))]
            "jobs" (Val.vList ([Val.vObj [("step", Val.vStr "pre-index"),
              ("status", Val.vStr "success")]] ++ [Val.vObj jf']))) k =
          getKey [("_id", Val.vStr "b"), ("pending", Val.vList [Val.vStr "snapshot"]),
            ("jobs", Val.vList ([Val.vObj [("step", Val.vStr "pre-index"),
                ("status", Val.vStr "success")]] ++
              [Val.vObj [("step", Val.vStr "index"),
                ("status", Val.vStr "in progress"), ("pid", Val.vInt 7)]]))] k) :=
  c9_failed_frame ⟨"b", "i", "/l", Val.vNull, "e"⟩
    { stage := Stage.STARTED, t0 := 2 } 5 "boom"
    [("_id", Val.vStr "b"), ("pending", Val.vList [Val.vStr "snapshot"]),
     ("jobs", Val.vList ([Val.vObj [("step", Val.vStr "pre-index"),
         ("status", Val.vStr "success")]] ++
       [Val.vObj [("step", Val.vStr "index"),
         ("status", Val.vStr "in progress"), ("pid", Val.vInt 7)]]))]
    [Val.vObj [("step", Val.vStr "pre-index"), ("status", Val.vStr "success")]]
    [("step", Val.vStr "index"), ("status", Val.vStr "in progress"),
     ("pid", Val.vInt 7)]
    (Val.vInt 7) rfl rfl rfl rfl

/-- Claim C4: on a build document with an empty job log, a fresh
registrar running `started("index")` then `succeed({})` leaves exactly
one Job record, with status `"success"`, step `"index"`, no `pid`
field, and a non-negative `time_in_s` (the clock does not run
backwards between the two calls). -/
theorem c4_round_trip (ind : Indexer) (doc : Fields) (i0 t0 t1 : Int)
    (nowDT : Val) (pid : Int)
    (hid : getKey doc "_id" = some (Val.vStr ind.build_name))
    (hjobs : getKey doc "jobs" = some (Val.vList []))
    (ht : t0 ≤ t1) :
    ∃ doc1 jf1 : Fields,
      IndexJobStateRegistrar.started ind "index" { stage := Stage.READY, t0 := i0 }
        t0 nowDT pid [doc] =
        Except.ok ({ stage := Stage.STARTED, t0 := t0 }, [doc1]) ∧
      IndexJobStateRegistrar.succeed ind { stage := Stage.STARTED, t0 := t0 } t1 [] [doc1] =
        Except.ok ({ stage := Stage.DONE, t0 := t0 },
          [setKey doc "jobs" (Val.vList [Val.vObj jf1])]) ∧
      jobsOf (setKey doc "jobs" (Val.vList [Val.vObj jf1])) = [Val.vObj jf1] ∧
      getKey jf1 "status" = some (Val.vStr "success") ∧
      getKey jf1 "step" = some (Val.vStr "index") ∧
      getKey jf1 "pid" = none ∧
      getKey jf1 "time_in_s" = some (Val.vInt (t1 - t0)) ∧
      0 ≤ t1 - t0 := by
  have him : idMatches doc ind.build_name = true := idMatches_of_getKey _ _ hid
  have hid1 : getKey (setKey doc "jobs" (Val.vList [Val.vObj [
      ("step", Val.vStr "index"), ("status", Val.vStr "in progress"),
      ("step_started_at", nowDT), ("logfile", Val.vStr ind.logfile),
      ("pid", Val.vInt pid)]])) "_id" = some (Val.vStr ind.build_name) := by
    rw [getKey_setKey_ne _ _ _ _ (by decide), hid]
  have him1 := idMatches_of_getKey _ _ hid1
  refine ⟨setKey doc "jobs" (Val.vList [Val.vObj [
      ("step", Val.vStr "index"), ("status", Val.vStr "in progress"),
      ("step_started_at", nowDT), ("logfile", Val.vStr ind.logfile),
      ("pid", Val.vInt pid)]]),
    [("step", Val.vStr "index"), ("status", Val.vStr "success"),
     ("step_started_at", nowDT), ("logfile", Val.vStr ind.logfile),
     ("time", timesofar t0 t1), ("time_in_s", Val.vInt (t1 - t0))],
    ?_, ?_, ?_, ?_, ?_, ?_, ?_, ?_⟩
  · unfold IndexJobStateRegistrar.started
    rw [if_pos rfl]
    dsimp only []
    rw [updateFirst_cons_self _ _ _ _ him]
    simp only [pushJob, hjobs, List.nil_append]
  · unfold IndexJobStateRegistrar.succeed IndexJobStateRegistrar._done
    rw [if_pos rfl, find_one_cons_self _ _ _ him1]
    simp only [getKey_setKey_self]
    simp [getKey, setKey, eraseKey, mergeFields_nil, setKey_setKey,
      replace_one, updateFirst, him1]
  · simp [jobsOf, getKey_setKey_self]
  · simp [getKey]
  · simp [getKey]
  · simp [getKey]
  · simp [getKey]
  · omega

/-- Witness for C4: the round trip on a concrete build document with an
empty job log, started at time 3 and finished at time 10. -/
theorem c4_witness :
    ∃ doc1 jf1 : Fields,
      IndexJobStateRegistrar.started ⟨"b", "i", "/l", Val.vNull, "e"⟩ "index"
        { stage := Stage.READY, t0 := 0 } 3 (Val.vStr "now") 7
        [[("_id", Val.vStr "b"), ("jobs", Val.vList [])]] =
        Except.ok ({ stage := Stage.STARTED, t0 := 3 }, [doc1]) ∧
      IndexJobStateRegistrar.succeed ⟨"b", "i", "/l", Val.vNull, "e"⟩
        { stage := Stage.STARTED, t0 := 3 } 10 [] [doc1] =
        Except.ok ({ stage := Stage.DONE, t0 := 3 },
          [setKey [("_id", Val.vStr "b"), ("jobs", Val.vList [])] "jobs"
            (Val.vList [Val.vObj jf1])]) ∧
      jobsOf (setKey [("_id", Val.vStr "b"), ("jobs", Val.vList [])] "jobs"
        (Val.vList [Val.vObj jf1])) = [Val.vObj jf1] ∧
      getKey jf1 "status" = some (Val.vStr "success") ∧
      getKey jf1 "step" = some (Val.vStr "index") ∧
      getKey jf1 "pid" = none ∧
      getKey jf1 "time_in_s" = some (Val.vInt (10 - 3)) ∧
      0 ≤ (10 : Int) - 3 :=
  c4_round_trip ⟨"b", "i", "/l", Val.vNull, "e"⟩
    [("_id", Val.vStr "b"), ("jobs", Val.vList [])] 0 3 10 (Val.vStr "now") 7
    rfl rfl (by decide)

/-! Lemmas about `prune`. -/

theorem jobIsStale_pruneJob (j : Val) :
    IndexJobStateRegistrar.jobIsStale (IndexJobStateRegistrar.pruneJob j) = false := by
  cases j with
  | vObj jf =>
    rw [IndexJobStateRegistrar.pruneJob]
    rcases hs : getKey jf "status" with _ | v
    · simp [IndexJobStateRegistrar.jobIsStale, hs]
    · cases v with
      | vStr s =>
        by_cases hin : s == "in progress"
        · simp only [hs, hin, if_true]
          have : getKey (eraseKey (setKey jf "status" (Val.vStr "cancelled")) "pid")
              "status" = some (Val.vStr "cancelled") := by
            rw [getKey_eraseKey_ne _ _ _ (by decide), getKey_setKey_self]
          simp [IndexJobStateRegistrar.jobIsStale, this]
        · simp only [hs, hin, if_false]
          simp [IndexJobStateRegistrar.jobIsStale, hs, hin]
      | vNull => simp [IndexJobStateRegistrar.jobIsStale, hs]
      | vBool b => simp [IndexJobStateRegistrar.jobIsStale, hs]
      | vInt n => simp [IndexJobStateRegistrar.jobIsStale, hs]
      | vList xs => simp [IndexJobStateRegistrar.jobIsStale, hs]
      | vObj fs => simp [IndexJobStateRegistrar.jobIsStale, hs]
  | vNull => rfl
  | vBool b => rfl
  | vInt n => rfl
  | vStr s => rfl
  | vList xs => rfl

theorem pruneJob_of_not_stale (j : Val)
    (h : IndexJobStateRegistrar.jobIsStale j = false) :
    IndexJobStateRegistrar.pruneJob j = j := by
  cases j with
  | vObj jf =>
    rw [IndexJobStateRegistrar.jobIsStale] at h
    rw [IndexJobStateRegistrar.pruneJob]
    rcases hs : getKey jf "status" with _ | v
    · simp [hs]
    · rw [hs] at h
      cases v with
      | vStr s => simp only [hs]; simp at h; simp [h]
      | vNull => simp [hs]
      | vBool b => simp [hs]
      | vInt n => simp [hs]
      | vList xs => simp [hs]
      | vObj fs => simp [hs]
  | vNull => rfl
  | vBool b => rfl
  | vInt n => rfl
  | vStr s => rfl
  | vList xs => rfl

theorem pruneDoc_of_not_stale (d : Fields)
    (h : IndexJobStateRegistrar.hasStaleJob d = false) :
    IndexJobStateRegistrar.pruneDoc d = d := by
  rw [IndexJobStateRegistrar.hasStaleJob] at h
  rw [IndexJobStateRegistrar.pruneDoc]
  rcases hj : getKey d "jobs" with _ | v
  · rfl
  · rw [hj] at h
    cases v with
    | vList js =>
      simp only []
      have hall : ∀ j ∈ js, IndexJobStateRegistrar.jobIsStale j = false := by
        intro j hjmem
        exact Bool.eq_false_iff.mpr (List.any_eq_false.mp h j hjmem)
      have hmap : ∀ l : List Val,
          (∀ j ∈ l, IndexJobStateRegistrar.jobIsStale j = false) →
          l.map IndexJobStateRegistrar.pruneJob = l := by
        intro l
        induction l with
        | nil => intro _; rfl
        | cons a t ih =>
          intro hl
          rw [List.map_cons, pruneJob_of_not_stale a (hl a (List.mem_cons_self a t)),
            ih (fun j hj => hl j (List.mem_cons_of_mem a hj))]
      rw [hmap js hall, setKey_of_getKey d "jobs" (Val.vList js) hj]
    | vNull => rfl
    | vBool b => rfl
    | vInt n => rfl
    | vStr s => rfl
    | vObj fs => rfl

theorem prune_fst (coll : Coll) :
    (IndexJobStateRegistrar.prune coll).1 =
      coll.map (fun d => if IndexJobStateRegistrar.hasStaleJob d then
        IndexJobStateRegistrar.pruneDoc d else d) := by
  induction coll with
  | nil => rfl
  | cons d rest ih =>
    rw [IndexJobStateRegistrar.prune]
    by_cases hd : IndexJobStateRegistrar.hasStaleJob d <;> simp [hd, ih]

theorem prune_snd (coll : Coll) :
    (IndexJobStateRegistrar.prune coll).2 =
      (coll.filter IndexJobStateRegistrar.hasStaleJob).map
        IndexJobStateRegistrar.pruneDoc := by
  induction coll with
  | nil => rfl
  | cons d rest ih =>
    rw [IndexJobStateRegistrar.prune]
    by_cases hd : IndexJobStateRegistrar.hasStaleJob d <;> simp [hd, ih, List.filter]

theorem no_stale_after_pruneDoc (d : Fields) (j : Val)
    (h : j ∈ jobsOf (if IndexJobStateRegistrar.hasStaleJob d then
      IndexJobStateRegistrar.pruneDoc d else d)) :
    IndexJobStateRegistrar.jobIsStale j = false := by
  by_cases hd : IndexJobStateRegistrar.hasStaleJob d
  · rw [if_pos hd] at h
    rw [IndexJobStateRegistrar.pruneDoc] at h
    rcases hj : getKey d "jobs" with _ | v
    · rw [IndexJobStateRegistrar.hasStaleJob, hj] at hd
      exact absurd hd (by simp)
    · rw [hj] at h
      cases v with
      | vList js =>
        simp only [jobsOf, getKey_setKey_self] at h
        obtain ⟨a, _, ha⟩ := List.mem_map.mp h
        rw [← ha]
        exact jobIsStale_pruneJob a
      | vNull => rw [IndexJobStateRegistrar.hasStaleJob, hj] at hd; exact absurd hd (by simp)
      | vBool b => rw [IndexJobStateRegistrar.hasStaleJob, hj] at hd; exact absurd hd (by simp)
      | vInt n => rw [IndexJobStateRegistrar.hasStaleJob, hj] at hd; exact absurd hd (by simp)
      | vStr s => rw [IndexJobStateRegistrar.hasStaleJob, hj] at hd; exact absurd hd (by simp)
      | vObj fs => rw [IndexJobStateRegistrar.hasStaleJob, hj] at hd; exact absurd hd (by simp)
  · rw [if_neg hd] at h
    rw [Bool.not_eq_true] at hd
    rw [IndexJobStateRegistrar.hasStaleJob] at hd
    rw [jobsOf] at h
    rcases hj : getKey d "jobs" with _ | v
    · rw [hj] at h; exact absurd h (List.not_mem_nil j)
    · rw [hj] at h hd
      cases v with
      | vList js => exact Bool.eq_false_iff.mpr (List.any_eq_false.mp hd j h)
      | vNull => exact absurd h (List.not_mem_nil j)
      | vBool b => exact absurd h (List.not_mem_nil j)
      | vInt n => exact absurd h (List.not_mem_nil j)
      | vStr s => exact absurd h (List.not_mem_nil j)
      | vObj fs => exact absurd h (List.not_mem_nil j)

/-- Claim C3: after `prune`, no build document contains a Job record
with status `"in progress"`; every record that was `"in progress"` is
rewritten to `"cancelled"` and loses its `pid` field; every other
record, and every document with no stale record, is unchanged; and
exactly the changed documents are written back with `replace_one`. -/
theorem c3_prune (coll : Coll) :
    ((IndexJobStateRegistrar.prune coll).1 =
      coll.map (fun d => if IndexJobStateRegistrar.hasStaleJob d then
        IndexJobStateRegistrar.pruneDoc d else d)) ∧
    (∀ d' ∈ (IndexJobStateRegistrar.prune coll).1, ∀ j ∈ jobsOf d',
      IndexJobStateRegistrar.jobIsStale j = false) ∧
    (∀ jf : Fields, getKey jf "status" = some (Val.vStr "in progress") →
      IndexJobStateRegistrar.pruneJob (Val.vObj jf) =
        Val.vObj (eraseKey (setKey jf "status" (Val.vStr "cancelled")) "pid") ∧
      getKey (eraseKey (setKey jf "status" (Val.vStr "cancelled")) "pid") "status" =
        some (Val.vStr "cancelled") ∧
      getKey (eraseKey (setKey jf "status" (Val.vStr "cancelled")) "pid") "pid" =
        none) ∧
    (∀ j : Val, IndexJobStateRegistrar.jobIsStale j = false →
      IndexJobStateRegistrar.pruneJob j = j) ∧
    (∀ d : Fields, IndexJobStateRegistrar.hasStaleJob d = false →
      IndexJobStateRegistrar.pruneDoc d = d) ∧
    ((IndexJobStateRegistrar.prune coll).2 =
      (coll.filter IndexJobStateRegistrar.hasStaleJob).map
        IndexJobStateRegistrar.pruneDoc) := by
  refine ⟨prune_fst coll, ?_, ?_, pruneJob_of_not_stale, pruneDoc_of_not_stale,
    prune_snd coll⟩
  · intro d' hd' j hj
    rw [prune_fst] at hd'
    obtain ⟨d, _, hdeq⟩ := List.mem_map.mp hd'
    rw [← hdeq] at hj
    exact no_stale_after_pruneDoc d j hj
  · intro jf hs
    refine ⟨?_, ?_, ?_⟩
    · rw [IndexJobStateRegistrar.pruneJob]
      simp only [hs]
      simp
    · rw [getKey_eraseKey_ne _ _ _ (by decide), getKey_setKey_self]
    · rw [getKey_eraseKey_self]

/-- Witness for C3: pruning a two-document store in which only the
second document has a stale Job record. -/
theorem c3_witness :
    ((IndexJobStateRegistrar.prune
      [[("_id", Val.vStr "a"), ("jobs", Val.vList [Val.vObj
          [("step", Val.vStr "index"), ("status", Val.vStr "success")]])],
       [("_id", Val.vStr "bb"), ("jobs", Val.vList [Val.vObj
          [("status", Val.vStr "in progress"), ("pid", Val.vInt 9)]])]]).1 =
      [[("_id", Val.vStr "a"), ("jobs", Val.vList [Val.vObj
          [("step", Val.vStr "index"), ("status", Val.vStr "success")]])],
       [("_id", Val.vStr "bb"), ("jobs", Val.vList [Val.vObj
          [("status", Val.vStr "cancelled")]])]]) ∧
    ((IndexJobStateRegistrar.prune
      [[("_id", Val.vStr "a"), ("jobs", Val.vList [Val.vObj
          [("step", Val.vStr "index"), ("status", Val.vStr "success")]])],
       [("_id", Val.vStr "bb"), ("jobs", Val.vList [Val.vObj
          [("status", Val.vStr "in progress"), ("pid", Val.vInt 9)]])]]).2 =
      [[("_id", Val.vStr "bb"), ("jobs", Val.vList [Val.vObj
          [("status", Val.vStr "cancelled")]])]]) ∧
    IndexJobStateRegistrar.jobIsStale (Val.vObj [("status", Val.vStr "cancelled")]) =
      false ∧
    IndexJobStateRegistrar.pruneJob (Val.vObj
        [("status", Val.vStr "in progress"), ("pid", Val.vInt 9)]) =
      Val.vObj (eraseKey (setKey [("status", Val.vStr "in progress"),
        ("pid", Val.vInt 9)] "status" (Val.vStr "cancelled")) "pid") ∧
    IndexJobStateRegistrar.pruneJob (Val.vObj
        [("step", Val.vStr "index"), ("status", Val.vStr "success")]) =
      Val.vObj [("step", Val.vStr "index"), ("status", Val.vStr "success")] ∧
    IndexJobStateRegistrar.pruneDoc
        [("_id", Val.vStr "a"), ("jobs", Val.vList [Val.vObj
          [("step", Val.vStr "index"), ("status", Val.vStr "success")]])] =
      [("_id", Val.vStr "a"), ("jobs", Val.vList [Val.vObj
          [("step", Val.vStr "index"), ("status", Val.vStr "success")]])] := by
  refine ⟨?_, ?_, ?_, ?_, ?_, ?_⟩
  · exact ((c3_prune _).1).trans (by rfl)
  · exact ((c3_prune [[("_id", Val.vStr "a"), ("jobs", Val.vList [Val.vObj
      [("step", Val.vStr "index"), ("status", Val.vStr "success")]])],
      [("_id", Val.vStr "bb"), ("jobs", Val.vList [Val.vObj
      [("status", Val.vStr "in progress"), ("pid", Val.vInt 9)]])]]).2.2.2.2.2).trans
      (by rfl)
  · refine (c3_prune [[("_id", Val.vStr "bb"), ("jobs", Val.vList [Val.vObj
      [("status", Val.vStr "in progress"), ("pid", Val.vInt 9)]])]]).2.1
      [("_id", Val.vStr "bb"), ("jobs", Val.vList [Val.vObj
        [("status", Val.vStr "cancelled")]])] ?_
      (Val.vObj [("status", Val.vStr "cancelled")]) ?_
    · show [("_id", Val.vStr "bb"), ("jobs", Val.vList [Val.vObj
        [("status", Val.vStr "cancelled")]])] ∈
        [[("_id", Val.vStr "bb"), ("jobs", Val.vList [Val.vObj
          [("status", Val.vStr "cancelled")]])]]
      exact List.mem_cons_self _ _
    · show Val.vObj [("status", Val.vStr "cancelled")] ∈
        [Val.vObj [("status", Val.vStr "cancelled")]]
      exact List.mem_cons_self _ _
  · exact ((c3_prune []).2.2.1 [("status", Val.vStr "in progress"),
      ("pid", Val.vInt 9)] rfl).1
  · exact (c3_prune []).2.2.2.1 _ rfl
  · exact (c3_prune []).2.2.2.2.1 _ rfl

/-- Counterexample to C1 as stated: `MainIndexJSR.succeed` in stage
`STARTED` does NOT always write the `index` mapping.  With the caller's
result `{}` the merged result carries no truthy `__READY__` flag, the
base `succeed` skips `delta_build["index"] = ...`, and the persisted
build document has no `index` field at all. -/
theorem c1_counterexample :
    MainIndexJSR.succeed ⟨"b1", "idx1", "/log", Val.vStr "localhost:9200", "dev"⟩
      { stage := Stage.STARTED, t0 := 0 } 5 (Val.vStr "2024-01-01") []
      [[("_id", Val.vStr "b1"),
        ("jobs", Val.vList [Val.vObj [("step", Val.vStr "index"),
          ("status", Val.vStr "in progress"), ("pid", Val.vInt 7)]])]] =
      Except.ok ({ stage := Stage.DONE, t0 := 0 },
        [[("_id", Val.vStr "b1"),
          ("jobs", Val.vList [Val.vObj [("step", Val.vStr "index"),
            ("status", Val.vStr "success"), ("time", timesofar 0 5),
            ("time_in_s", Val.vInt (5 - 0))]])]]) ∧
    getKey [("_id", Val.vStr "b1"),
      ("jobs", Val.vList [Val.vObj [("step", Val.vStr "index"),
        ("status", Val.vStr "success"), ("time", timesofar 0 5),
        ("time_in_s", Val.vInt (5 - 0))]])] "index" = none := by
  constructor
  · simp [MainIndexJSR.succeed, mainIndexSeed, IndexJobStateRegistrar.succeed,
      IndexJobStateRegistrar._done, mergeFields, replFlag, mergeGo.eq_1, mergeGo.eq_2,
      mergeVal.eq_1, mergeVal.eq_2, getKey, setKey, eraseKey, find_one, List.find?,
      idMatches, replace_one, updateFirst]
  · simp [getKey]

/-- Claim C1 (amended): when the caller's result carries a truthy
`__READY__` flag — and only then — a successful `MainIndexJSR.succeed`
in stage `STARTED` writes the build document's `index` field, mapping
the indexer's index name to the deep merge of the metadata seed
(display host, environment name, creation timestamp, marked
`__REPLACE__` for full replacement) with the caller's result (minus the
popped `__READY__`); the deep merge is right-biased, so caller-supplied
fields win over the defaults. -/
theorem c1_index_metadata (ind : Indexer) (rs : RegState) (now : Int)
    (created_at : Val) (result : Fields) (build : Fields) (js : List Val)
    (jf : Fields) (pv : Val)
    (hstage : rs.stage = Stage.STARTED)
    (hid : getKey build "_id" = some (Val.vStr ind.build_name))
    (hjobs : getKey build "jobs" = some (Val.vList (js ++ [Val.vObj jf])))
    (hpid : getKey jf "pid" = some pv)
    (hindex : getKey build "index" = none)
    (hready : getKey result "__READY__" = some (Val.vBool true))
    (hnd : (result.map Prod.fst).Nodup) :
    (∃ jf' : Fields,
      MainIndexJSR.succeed ind rs now created_at result [build] =
        Except.ok ({ stage := Stage.DONE, t0 := rs.t0 },
          [setKey (setKey build "jobs" (Val.vList (js ++ [Val.vObj jf'])))
            "index" (Val.vObj [(ind.es_index_name,
              Val.vObj (eraseKey
                (mergeFields (mainIndexSeed ind created_at) result) "__READY__"))])]) ∧
      getKey jf' "status" = some (Val.vStr "success") ∧
      getKey jf' "pid" = none) ∧
    (∀ (x dx : Fields) (k : String) (v : Val),
      (dx.map Prod.fst).Nodup → getKey dx k = some v →
      (∀ fs, v ≠ Val.vObj fs) → k ≠ "__REPLACE__" →
      getKey (mergeFields x dx) k = some v) := by
  have him := idMatches_of_getKey _ _ hid
  have hready' : getKey (mergeFields (mainIndexSeed ind created_at) result)
      "__READY__" = some (Val.vBool true) :=
    mergeFields_getKey_right _ _ _ _ hnd hready (by intro fs; simp) (by decide)
  have hp : getKey (setKey (setKey jf "time" (timesofar rs.t0 now)) "time_in_s"
      (Val.vInt (now - rs.t0))) "pid" = some pv := by
    rw [getKey_setKey_ne _ _ _ _ (by decide), getKey_setKey_ne _ _ _ _ (by decide), hpid]
  constructor
  · refine ⟨setKey (eraseKey (setKey (setKey jf "time" (timesofar rs.t0 now))
      "time_in_s" (Val.vInt (now - rs.t0))) "pid") "status" (Val.vStr "success"),
      ?_, ?_, ?_⟩
    · have hidx' : getKey (setKey build "jobs" (Val.vList (js ++ [Val.vObj
        (setKey (eraseKey (setKey (setKey jf "time" (timesofar rs.t0 now))
          "time_in_s" (Val.vInt (now - rs.t0))) "pid") "status"
          (Val.vStr "success"))]))) "index" = none := by
        rw [getKey_setKey_ne _ _ _ _ (by decide), hindex]
      unfold MainIndexJSR.succeed IndexJobStateRegistrar.succeed
        IndexJobStateRegistrar._done
      rw [if_pos hstage, find_one_cons_self _ _ _ him]
      simp only [hjobs, List.getLast?_concat, List.dropLast_concat, hp, hready',
        Val.truthy, if_true]
      simp only [mergeFields, replFlag, getKey, mergeGo.eq_2, mergeGo.eq_1,
        mergeVal.eq_1, hidx', setKey, replace_one, updateFirst, him, if_true]
      simp [hidx', setKey]
    · rw [getKey_setKey_self]
    · rw [getKey_setKey_ne _ _ _ _ (by decide), getKey_eraseKey_self]
  · exact fun x dx k v hnd' hget hobj hrep =>
      mergeFields_getKey_right x dx k v hnd' hget hobj hrep

/-- Witness for C1 (amended): a concrete `MainIndexJSR.succeed` whose
result carries `__READY__ = True` and an extra `count` field. -/
theorem c1_witness :
    (∃ jf' : Fields,
      MainIndexJSR.succeed ⟨"b1", "idx1", "/log", Val.vStr "localhost:9200", "dev"⟩
        { stage := Stage.STARTED, t0 := 0 } 5 (Val.vStr "ts")
        [("__READY__", Val.vBool true), ("count", Val.vInt 99)]
        [[("_id", Val.vStr "b1"),
          ("jobs", Val.vList [Val.vObj [("pid", Val.vInt 7)]])]] =
        Except.ok ({ stage := Stage.DONE, t0 := 0 },
          [setKey (setKey [("_id", Val.vStr "b1"),
              ("jobs", Val.vList [Val.vObj [("pid", Val.vInt 7)]])] "jobs"
              (Val.vList [Val.vObj jf']))
            "index" (Val.vObj [("idx1",
              Val.vObj (eraseKey (mergeFields
                (mainIndexSeed ⟨"b1", "idx1", "/log", Val.vStr "localhost:9200", "dev"⟩
                  (Val.vStr "ts"))
                [("__READY__", Val.vBool true), ("count", Val.vInt 99)])
                "__READY__"))])]) ∧
      getKey jf' "status" = some (Val.vStr "success") ∧
      getKey jf' "pid" = none) ∧
    (∀ (x dx : Fields) (k : String) (v : Val),
      (dx.map Prod.fst).Nodup → getKey dx k = some v →
      (∀ fs, v ≠ Val.vObj fs) → k ≠ "__REPLACE__" →
      getKey (mergeFields x dx) k = some v) :=
  c1_index_metadata ⟨"b1", "idx1", "/log", Val.vStr "localhost:9200", "dev"⟩
    { stage := Stage.STARTED, t0 := 0 } 5 (Val.vStr "ts")
    [("__READY__", Val.vBool true), ("count", Val.vInt 99)]
    [("_id", Val.vStr "b1"), ("jobs", Val.vList [Val.vObj [("pid", Val.vInt 7)]])]
    [] [("pid", Val.vInt 7)] (Val.vInt 7)
    rfl rfl rfl rfl rfl rfl (by decide)

/-- Claim C6: for every snapshot run that completes successfully, the
pre-existing snapshot of the same name was deleted first exactly when
one existed, and the success result is exactly
`{"replaced": <whether it existed>, "created_at": <timestamp>}`. -/
theorem c6_replace_flag (snapExists : Bool) (polls : List String) (created_at : Val)
    (deleted : Bool) (r : Fields)
    (h : SnapshotEnv._snapshot snapExists polls created_at =
      some (deleted, Except.ok r)) :
    deleted = snapExists ∧
    r = [("replaced", Val.vBool snapExists), ("created_at", created_at)] := by
  unfold SnapshotEnv._snapshot at h
  rcases hp : pollLoop polls with _ | e
  · rw [hp] at h
    exact absurd h (by simp)
  · rw [hp] at h
    cases e with
    | error e => simp at h
    | ok u =>
      simp at h
      exact ⟨h.1.symm, h.2.symm⟩

/-- Witness for C6: a run over a pre-existing snapshot that polls
`IN_PROGRESS` then `SUCCESS`. -/
theorem c6_witness :
    true = true ∧
    ([("replaced", Val.vBool true), ("created_at", Val.vStr "t")] : Fields) =
      [("replaced", Val.vBool true), ("created_at", Val.vStr "t")] :=
  c6_replace_flag true ["IN_PROGRESS", "SUCCESS"] (Val.vStr "t") true
    [("replaced", Val.vBool true), ("created_at", Val.vStr "t")] rfl

/-- Claim C8: when the repository is missing, the pre phase first
ensures the bucket exists (creating it only when absent) and then
creates the repository; when the repository exists, no creation call is
made; hence a second run after any run issues no creation calls and
leaves the backend state unchanged (idempotence). -/
theorem c8_provision_idempotent (st : ProvState) (acl acl2 idxenv envname : String) :
    (st.repoExists = false →
      (SnapshotEnv.pre_snapshot st acl idxenv envname).1 =
        ({ bucketExists := true, repoExists := true },
          if st.bucketExists then [ProvCall.createRepository]
          else [ProvCall.createBucket acl, ProvCall.createRepository])) ∧
    (st.repoExists = true →
      (SnapshotEnv.pre_snapshot st acl idxenv envname).1 = (st, [])) ∧
    ((SnapshotEnv.pre_snapshot
        (SnapshotEnv.pre_snapshot st acl idxenv envname).1.1 acl2 idxenv envname).1 =
      ((SnapshotEnv.pre_snapshot st acl idxenv envname).1.1, [])) := by
  obtain ⟨b, r⟩ := st
  cases b <;> cases r <;> simp [SnapshotEnv.pre_snapshot]

/-- Witness for C8: provisioning from an empty backend creates the
bucket then the repository; from a full backend it creates nothing;
a second run after the first creates nothing. -/
theorem c8_witness :
    ((SnapshotEnv.pre_snapshot ⟨false, false⟩ "private" "ix" "env").1 =
      (⟨true, true⟩, [ProvCall.createBucket "private", ProvCall.createRepository])) ∧
    ((SnapshotEnv.pre_snapshot ⟨true, true⟩ "private" "ix" "env").1 =
      (⟨true, true⟩, [])) ∧
    ((SnapshotEnv.pre_snapshot
        (SnapshotEnv.pre_snapshot ⟨false, false⟩ "private" "ix" "env").1.1
        "private" "ix" "env").1 =
      ((SnapshotEnv.pre_snapshot ⟨false, false⟩ "private" "ix" "env").1.1, [])) :=
  ⟨((c8_provision_idempotent ⟨false, false⟩ "private" "private" "ix" "env").1 rfl).trans
      (by rfl),
   (c8_provision_idempotent ⟨true, true⟩ "private" "private" "ix" "env").2.1 rfl,
   (c8_provision_idempotent ⟨false, false⟩ "private" "private" "ix" "env").2.2⟩

/-- Claim C5: when a phase body raises, that phase's Job record is
marked `"failed"` with the stringified error, the fault is propagated to
the pipeline caller, and no later phase runs: with the `pre` body
succeeding and the `snapshot` body raising, the final document carries
exactly the successful `pre` record and the failed `snapshot` record,
and no `post` Job record is appended. -/
theorem c5_pipeline_abort (bodies : String → Except String Fields)
    (doc : Fields) (js : List Val) (rPre : Fields) (e : String)
    (hjobs : getKey doc "jobs" = some (Val.vList js))
    (hpre : bodies "pre" = Except.ok rPre)
    (hsnap : bodies "snapshot" = Except.error e) :
    SnapshotEnv.snapshot bodies doc =
      (Except.error e, setKey doc "jobs" (Val.vList (js ++
        [Val.vObj [("step", Val.vStr "pre"), ("status", Val.vStr "success")],
         Val.vObj [("step", Val.vStr "snapshot"), ("status", Val.vStr "failed"),
           ("err", Val.vStr e)]]))) ∧
    (∀ jf : Fields,
      Val.vObj jf ∈ js ++
        [Val.vObj [("step", Val.vStr "pre"), ("status", Val.vStr "success")],
         Val.vObj [("step", Val.vStr "snapshot"), ("status", Val.vStr "failed"),
           ("err", Val.vStr e)]] →
      getKey jf "step" = some (Val.vStr "post") → Val.vObj jf ∈ js) := by
  constructor
  · unfold SnapshotEnv.snapshot
    simp only [runSteps, hpre, hsnap]
    simp only [snapStarted, snapSucceed, snapFailed, markLastJob, pushJob,
      hjobs, getKey_setKey_self, List.getLast?_concat, List.dropLast_concat,
      setKey_setKey, setKey, eraseKey, getKey]
    simp [List.append_assoc, setKey]
  · intro jf hmem hstep
    rcases List.mem_append.mp hmem with hin | hin
    · exact hin
    · simp only [List.mem_cons, List.not_mem_nil, or_false] at hin
      rcases hin with h1 | h1
      · injection h1 with h2
        subst h2
        simp [getKey] at hstep
      · injection h1 with h2
        subst h2
        simp [getKey] at hstep

/-- Witness for C5: the snapshot phase body is the snapshot runner whose
status polling reports `FAILED`; the pipeline aborts with `"FAILED"`,
the snapshot Job record is failed, and no `post` record exists. -/
theorem c5_witness :
    (SnapshotEnv.snapshot
      (fun s =>
        if s = "snapshot" then
          match SnapshotEnv._snapshot false ["FAILED"] (Val.vStr "t") with
          | some (_, r) => r
          | none => Except.ok []
        else Except.ok [])
      [("_id", Val.vStr "b"), ("jobs", Val.vList [])] =
      (Except.error "FAILED",
        setKey [("_id", Val.vStr "b"), ("jobs", Val.vList [])] "jobs"
          (Val.vList (([] : List Val) ++
            [Val.vObj [("step", Val.vStr "pre"), ("status", Val.vStr "success")],
             Val.vObj [("step", Val.vStr "snapshot"), ("status", Val.vStr "failed"),
               ("err", Val.vStr "FAILED")]])))) ∧
    (∀ jf : Fields,
      Val.vObj jf ∈ ([] : List Val) ++
        [Val.vObj [("step", Val.vStr "pre"), ("status", Val.vStr "success")],
         Val.vObj [("step", Val.vStr "snapshot"), ("status", Val.vStr "failed"),
           ("err", Val.vStr "FAILED")]] →
      getKey jf "step" = some (Val.vStr "post") → Val.vObj jf ∈ ([] : List Val)) :=
  c5_pipeline_abort
    (fun s =>
      if s = "snapshot" then
        match SnapshotEnv._snapshot false ["FAILED"] (Val.vStr "t") with
        | some (_, r) => r
        | none => Except.ok []
      else Except.ok [])
    [("_id", Val.vStr "b"), ("jobs", Val.vList [])] [] [] "FAILED" rfl rfl rfl

/-- Counterexample to C7 as stated ("raises if and only if any
placeholder remains unresolved"): a configuration value containing a
literal `%` that is no placeholder — templating leaves `"50%"`
unchanged, so nothing was unresolved — still makes
`RepositoryConfig.format` raise the templating error, refuting the
"only if" direction. -/
theorem c7_counterexample :
    RepositoryConfig.format [("bucket", Val.vStr "50%")] [] "2024" =
      Except.error "Failed to template." ∧
    template_out "50%" [] "2024" = "50%" := by
  constructor
  · simp [RepositoryConfig.format, mapStrFields, mapStrVal, template_out,
      substPct, substY, breakTmpl, hasPctFields, hasPctVal]
  · simp [template_out, substPct, substY, breakTmpl]

/-- Claim C7 (amended): templating replaces `$(Y)` with the current year
and `%(dotted.path)s` with the value looked up in the build document
(leaving the placeholder in place when the path is missing), and
`format` raises the hard configuration error exactly when a `%`
character remains in the templated output — so every unresolved
`%(...)s` placeholder raises, `{bucket: "backup-$(Y)"}` in year 2024
with no build document yields `{bucket: "backup-2024"}`, and
`{base_path: "%(missing.field)s"}` against a document lacking the field
fails; but a literal `%` with no placeholder also raises. -/
theorem c7_templating (cfg doc : Fields) (year : String) :
    (RepositoryConfig.format [("bucket", Val.vStr "backup-$(Y)")] [] "2024" =
      Except.ok [("bucket", Val.vStr "backup-2024")]) ∧
    (RepositoryConfig.format [("base_path", Val.vStr "%(missing.field)s")]
      [("x", Val.vInt 1)] "2024" = Except.error "Failed to template.") ∧
    ((∃ err, RepositoryConfig.format cfg doc year = Except.error err) ↔
      hasPctFields (mapStrFields (fun s => template_out s doc year) cfg) = true) ∧
    (∀ cs : List Char,
      substY year.data ('$' :: '(' :: 'Y' :: ')' :: cs) =
        year.data ++ substY year.data cs) ∧
    (∀ (p r1 : List Char) (v : Val),
      breakTmpl (p ++ ')' :: 's' :: r1) = some (p, r1) →
      lookupDot doc (String.mk p) = some v →
      substPct doc ('%' :: '(' :: (p ++ ')' :: 's' :: r1)) =
        (valToString v).data ++ substPct doc r1) ∧
    (∀ (p r1 : List Char),
      breakTmpl (p ++ ')' :: 's' :: r1) = some (p, r1) →
      lookupDot doc (String.mk p) = none →
      substPct doc ('%' :: '(' :: (p ++ ')' :: 's' :: r1)) =
        '%' :: '(' :: (p ++ ')' :: 's' :: substPct doc r1)) := by
  refine ⟨?_, ?_, ?_, ?_, ?_, ?_⟩
  · simp [RepositoryConfig.format, mapStrFields, mapStrVal, template_out,
      substPct, substY, breakTmpl, hasPctFields, hasPctVal]
  · simp [RepositoryConfig.format, mapStrFields, mapStrVal, template_out,
      substPct, substY, breakTmpl, lookupDot, lookupDotGo, splitDotsGo, getKey,
      hasPctFields, hasPctVal]
  · unfold RepositoryConfig.format
    by_cases h : hasPctFields (mapStrFields (fun s => template_out s doc year) cfg)
    · rw [if_pos h]
      exact ⟨fun _ => h, fun _ => ⟨"Failed to template.", rfl⟩⟩
    · rw [if_neg h]
      constructor
      · intro ⟨err, herr⟩
        exact absurd herr (by simp)
      · intro hh
        exact absurd hh h
  · intro cs
    rfl
  · intro p r1 v hbreak hlook
    rw [substPct]
    simp only [List.head?_cons, List.tail_cons]
    rw [if_pos (by simp)]
    split
    · rename_i p1 r' heq
      rw [hbreak] at heq
      injection heq with heq2
      obtain ⟨hp1, hr'⟩ := (Prod.mk.injEq _ _ _ _).mp heq2
      subst hp1
      subst hr'
      simp only [hlook]
    · rename_i heq
      rw [hbreak] at heq
      exact absurd heq (by simp)
  · intro p r1 hbreak hlook
    rw [substPct]
    simp only [List.head?_cons, List.tail_cons]
    rw [if_pos (by simp)]
    split
    · rename_i p1 r' heq
      rw [hbreak] at heq
      injection heq with heq2
      obtain ⟨hp1, hr'⟩ := (Prod.mk.injEq _ _ _ _).mp heq2
      subst hp1
      subst hr'
      simp only [hlook]
    · rename_i heq
      rw [hbreak] at heq
      exact absurd heq (by simp)

/-- Witness for C7 (amended): the `$(Y)` macro at the head of a string,
a `%(a.b)s` placeholder resolved against a nested document, and the
same placeholder left in place when the document lacks the path. -/
theorem c7_witness :
    (substY "2024".data ('$' :: '(' :: 'Y' :: ')' :: "x".data) =
      "2024".data ++ substY "2024".data "x".data) ∧
    (substPct [("a", Val.vObj [("b", Val.vStr "V")])]
        ('%' :: '(' :: ("a.b".data ++ ')' :: 's' :: "!".data)) =
      (valToString (Val.vStr "V")).data ++
        substPct [("a", Val.vObj [("b", Val.vStr "V")])] "!".data) ∧
    (substPct [("x", Val.vInt 1)]
        ('%' :: '(' :: ("a.b".data ++ ')' :: 's' :: "!".data)) =
      '%' :: '(' :: ("a.b".data ++ ')' :: 's' ::
        substPct [("x", Val.vInt 1)] "!".data)) :=
  ⟨(c7_templating [] [] "2024").2.2.2.1 "x".data,
   (c7_templating [] [("a", Val.vObj [("b", Val.vStr "V")])] "2024").2.2.2.2.1
     "a.b".data "!".data (Val.vStr "V") rfl rfl,
   (c7_templating [] [("x", Val.vInt 1)] "2024").2.2.2.2.2
     "a.b".data "!".data rfl rfl⟩
